import Mathlib

/-!
# Verification of the smarticky Backup & Restore Engine

A shallow embedding, in Lean 4, of the backup/restore subsystem of the
smarticky note-taking application (`internal/handler/backup.go` together
with the `internal/storage` file-system wrapper), and proofs of the
specification claims about it.

The development has two layers:

* a **pure data layer**: the backup-filename pattern filter used by the
  listing and retention code, the retention-policy marking loop, the
  archive codec (`createBackupArchive` / `extractBackupArchive`) over an
  explicit file-store model, and `verifyBackupData`;
* a **handler/trace layer**: each HTTP handler (`BackupWebDAV`,
  `BackupS3`, `RestoreWebDAV`, `RestoreS3`, listing, verification, and
  `performAutoBackup`) modelled as a pure function from its configuration
  and an environment of I/O outcomes to a response, a final file store,
  and a trace of the externally visible operations it performed, in
  program order.

Go strings are modelled as `List Char` where byte-level slicing matters
(backup file names), and as Lean `String` for response messages.
Go `time.Time` / `time.Duration` are modelled as `Int` nanoseconds.
The gzip/tar byte encoding is abstracted: an archive is its list of tagged
entries (the tar library's encode/decode round-trip is external to this
repository), and paths are lists of segments (`filepath.Join` is list
append, `filepath.Rel` strips a leading segment list).
-/

namespace Smarticky

/-! ## Backup filename pattern (ListWebDAVBackups / ListS3Backups / cleanup)

The Go source identifies "our" backup files among a remote listing with

```
if (len(name) > 19 && name[:19] == "smarticky_backup_") ||
    (len(name) > 24 && name[:24] == "smarticky_auto_backup_") {
```

`name[:n]` is byte slicing, so we model names as `List Char` (all names
involved are ASCII) and the test as `name.take n = pre`.
-/

/-- The manual-backup filename start `smarticky_backup_` (17 characters). -/
def manualBackupPre : List Char := "smarticky_backup_".toList

/-- The automatic-backup filename start `smarticky_auto_backup_`
(22 characters). -/
def autoBackupPre : List Char := "smarticky_auto_backup_".toList

/-- The filter condition of `ListWebDAVBackups` / `ListS3Backups` /
`cleanupWebDAVBackups` / `cleanupS3Backups`, transcribed from the source:
`(len(name) > 19 && name[:19] == "smarticky_backup_") ||
 (len(name) > 24 && name[:24] == "smarticky_auto_backup_")`. -/
def matchesBackupPattern (name : List Char) : Bool :=
  (decide (name.length > 19) && decide (name.take 19 = manualBackupPre))
  || (decide (name.length > 24) && decide (name.take 24 = autoBackupPre))

/-- A remote file as reported by the WebDAV `ReadDir` / S3 `ListObjectsV2`
call: name, size, modification time (nanoseconds). -/
structure RemoteFile where
  name : List Char
  size : Int
  modTime : Int
deriving DecidableEq, Repr

/-- `BackupFileInfo` from the source: {filename, size, created_at}. -/
structure BackupFileInfo where
  filename : List Char
  size : Int
  createdAt : Int
deriving DecidableEq, Repr

/-- The listing loop of `ListWebDAVBackups` / `ListS3Backups`: keep the
files whose name passes `matchesBackupPattern`, projected to
`BackupFileInfo`. -/
def listBackupsFilter (files : List RemoteFile) : List BackupFileInfo :=
  (files.filter (fun f => matchesBackupPattern f.name)).map
    (fun f => { filename := f.name, size := f.size, createdAt := f.modTime })

/-! ## Retention policy (cleanupWebDAVBackups / cleanupS3Backups) -/

/-- Nanoseconds per day: `24 * time.Hour` in Go is `24 * 3600 * 1e9` ns. -/
def nsPerDay : Int := 86400000000000

/-- A backup entry inside the cleanup routines: name and modification
time (nanoseconds). -/
structure BackupEntry where
  name : List Char
  modTime : Int
deriving DecidableEq, Repr

/-- The per-entry deletion test of the cleanup loop, at 0-based index `i`
of the newest-first sorted list:

```
shouldDelete := false
if maxCount > 0 && i >= maxCount { shouldDelete = true }
if retentionDays > 0 {
    age := now.Sub(backup.ModTime)
    if age > time.Duration(retentionDays)*24*time.Hour { shouldDelete = true }
}
```
-/
def shouldDelete (now retentionDays maxCount : Int) (i : Nat) (e : BackupEntry) : Bool :=
  (decide (maxCount > 0) && decide ((i : Int) ≥ maxCount))
  || (decide (retentionDays > 0) && decide (now - e.modTime > retentionDays * nsPerDay))

/-- The entries marked for deletion by the cleanup loop, with their
indices in the (assumed newest-first) input order. -/
def markedForDeletion (now retentionDays maxCount : Int) (backups : List BackupEntry) :
    List (Nat × BackupEntry) :=
  backups.enum.filter (fun p => shouldDelete now retentionDays maxCount p.1 p.2)

/-- `filesToDelete` accumulated by the cleanup loop: the names of the
marked entries, in order. -/
def filesToDelete (now retentionDays maxCount : Int) (backups : List BackupEntry) :
    List (List Char) :=
  (markedForDeletion now retentionDays maxCount backups).map (fun p => p.2.name)

/-- One pass of the source's bubble sort, with the element currently being
carried rightwards made explicit: compare the carried entry with the head
and swap whenever the carried one has a strictly older modification time
(`backups[j].ModTime.Before(backups[j+1].ModTime)`). -/
def bubbleStep (x : BackupEntry) : List BackupEntry → List BackupEntry
  | [] => [x]
  | b :: rest =>
    if x.modTime < b.modTime then b :: bubbleStep x rest
    else x :: bubbleStep b rest

/-- One full adjacent-swap pass over the list. -/
def bubblePass : List BackupEntry → List BackupEntry
  | [] => []
  | a :: rest => bubbleStep a rest

/-- The source's bubble sort (newest first): `len - 1` outer iterations,
each a full adjacent-swap pass. -/
def sortNewestFirst (l : List BackupEntry) : List BackupEntry :=
  (List.range (l.length - 1)).foldl (fun acc _ => bubblePass acc) l

/-- The full cleanup pipeline shared by `cleanupWebDAVBackups` and
`cleanupS3Backups` (after the backend-specific listing): early return when
both thresholds are zero, filter by `matchesBackupPattern`, early return
when no backup file remains, sort newest-first, mark, and return the
names to delete. -/
def cleanupBackups (now retentionDays maxCount : Int) (files : List RemoteFile) :
    List (List Char) :=
  if retentionDays = 0 ∧ maxCount = 0 then []
  else
    let backups := (files.filter (fun f => matchesBackupPattern f.name)).map
      (fun f => ({ name := f.name, modTime := f.modTime } : BackupEntry))
    if backups.isEmpty then []
    else filesToDelete now retentionDays maxCount (sortNewestFirst backups)

/-! ### Concrete retention scenario of the spec (claim C2):
five entries aged 1, 5, 10, 40, 100 days, `maxAgeDays = 30`,
`maxCount = 3`. -/

/-- A reference "now" for the concrete retention scenario. -/
def exampleNow : Int := 200 * nsPerDay

/-- An entry whose age is exactly `days` days at `exampleNow`. -/
def entryAged (days : Int) (name : List Char) : BackupEntry :=
  { name := name, modTime := exampleNow - days * nsPerDay }

/-- The five entries of the spec's retention scenario, newest first:
ages 1, 5, 10, 40, 100 days, named a, b, c, d, e. -/
def exampleEntries : List BackupEntry :=
  [entryAged 1 ['a'], entryAged 5 ['b'], entryAged 10 ['c'],
   entryAged 40 ['d'], entryAged 100 ['e']]

/-- A remote file name carrying the manual-backup naming pattern, as
produced by `BackupWebDAV` itself. -/
def c1FailingName : List Char := "smarticky_backup_20250101_120000.tar.gz".toList

/-! ## File-store model

The data directory (and the verifier's in-memory filesystem) as a map
from relative paths to nodes.  A path is its list of segments; a node is
a regular file with byte content (bytes as `List Nat`) or a directory.
The store is an insertion list: later inserts shadow earlier ones, which
models afero's overwrite-on-create semantics. -/

/-- A relative path, as its list of segments. -/
abbrev Path := List String

/-- A filesystem node: regular file with contents, or directory. -/
inductive FNode where
  | file (content : List Nat)
  | dir
deriving DecidableEq, Repr

/-- A file store: an insertion list of path/node bindings. -/
abbrev FsStore := List (Path × FNode)

/-- Look a path up; the most recent insertion wins. -/
def FsStore.lookup : FsStore → Path → Option FNode
  | [], _ => none
  | (p, n) :: rest, q => if q = p then some n else FsStore.lookup rest q

/-- Create or overwrite a node at a path. -/
def FsStore.insert (st : FsStore) (p : Path) (n : FNode) : FsStore :=
  (p, n) :: st

/-- `stripPre p q = some r` exactly when `q = p ++ r`: the relative
remainder of `q` under the directory `p` (the model of `filepath.Rel`). -/
def stripPre : Path → Path → Option Path
  | [], q => some q
  | _ :: _, [] => none
  | a :: as, b :: bs => if a = b then stripPre as bs else none

/-- Helper for `mkdirAll`: create the directories `pre ++ [s₁]`,
`pre ++ [s₁, s₂]`, … for the remaining segments. -/
def mkdirAllFrom (st : FsStore) (pre : Path) : Path → FsStore
  | [] => st
  | seg :: rest => mkdirAllFrom (FsStore.insert st (pre ++ [seg]) FNode.dir) (pre ++ [seg]) rest

/-- `MkdirAll`: create the directory `p` and every ancestor. -/
def mkdirAll (st : FsStore) (p : Path) : FsStore := mkdirAllFrom st [] p

/-- `ancestorIn pre rest q` holds when `q` is one of the directories
`mkdirAllFrom st pre rest` creates. -/
def ancestorIn (pre rest q : Path) : Bool :=
  match rest with
  | [] => false
  | seg :: rest' => decide (q = pre ++ [seg]) || ancestorIn (pre ++ [seg]) rest' q

/-- A tar entry: tagged header (relative path, dir/regular flag) plus raw
bytes for regular files. -/
inductive TarEntry where
  | dir (name : Path)
  | reg (name : Path) (content : List Nat)
deriving DecidableEq, Repr

/-- Replay one tar entry into a store, as the extraction loop does:
a directory header is `MkdirAll(target)`; a regular header is
`h.fs.Create(target)` — whose `storage.FileSystem` wrapper first runs
`MkdirAll(filepath.Dir(target))` — followed by writing the contents. -/
def extractOne (st : FsStore) : TarEntry → FsStore
  | .dir p => mkdirAll st p
  | .reg p c => FsStore.insert (mkdirAll st p.dropLast) p (FNode.file c)

/-- `extractBackupArchive`: replay the archive's entries, in order, into
the store rooted at the data directory.  The same loop, pointed at an
empty in-memory store, is the verifier's extract-to-memory. -/
def extractBackupArchive (entries : List TarEntry) (st : FsStore) : FsStore :=
  entries.foldl extractOne st

/-! ## Directory trees and createBackupArchive -/

/-- A directory tree (the uploads subtree as walked by `afero.Walk`). -/
inductive UTree where
  | file (content : List Nat)
  | dir (children : List (String × UTree))

mutual
/-- The walk of `afero.Walk` rooted at `p`, emitting one tar entry per
node visited (the root directory itself first, then each child subtree):
exactly the `addFile(path, relPath)` calls of `createBackupArchive`. -/
def walkTree (p : Path) : UTree → List TarEntry
  | .file c => [TarEntry.reg p c]
  | .dir ch => TarEntry.dir p :: walkForest p ch
def walkForest (p : Path) : List (String × UTree) → List TarEntry
  | [] => []
  | (n, t) :: rest => walkTree (p ++ [n]) t ++ walkForest p rest
end

mutual
/-- Look up a relative path inside a tree. -/
def treeLookup : UTree → Path → Option FNode
  | .file c, [] => some (FNode.file c)
  | .file _, _ :: _ => none
  | .dir _, [] => some FNode.dir
  | .dir ch, seg :: rest => forestLookup ch seg rest
def forestLookup : List (String × UTree) → String → Path → Option FNode
  | [], _, _ => none
  | (n, t) :: chRest, seg, rest =>
    if seg = n then treeLookup t rest else forestLookup chRest seg rest
end

/-- Does a child list contain an entry named `n`? -/
def containsKey (n : String) : List (String × UTree) → Bool
  | [] => false
  | (m, _) :: rest => decide (n = m) || containsKey n rest

mutual
/-- Well-formedness of a tree as a real directory tree: sibling names are
distinct. -/
def wfTree : UTree → Bool
  | .file _ => true
  | .dir ch => wfForest ch
def wfForest : List (String × UTree) → Bool
  | [] => true
  | (n, t) :: rest => wfTree t && !containsKey n rest && wfForest rest
end

/-- The primary database file name. -/
def dbFileName : String := "smarticky.db"

/-- The uploads directory name. -/
def uploadsDirName : String := "uploads"

/-- The data root as `createBackupArchive` sees it: the primary database
file (present or not) and the uploads subtree (present or not). -/
structure DataRoot where
  db : Option (List Nat)
  uploads : Option UTree

/-- `createBackupArchive`: add `smarticky.db` (fatal error — `none` —
when its `Stat` fails because the file is missing), then, only if the
uploads directory exists, walk it recursively adding each visited node
under its path relative to the data directory. -/
def createBackupArchive (root : DataRoot) : Option (List TarEntry) :=
  match root.db with
  | none => none
  | some dbc =>
    match root.uploads with
    | none => some [TarEntry.reg [dbFileName] dbc]
    | some t => some (TarEntry.reg [dbFileName] dbc :: walkTree [uploadsDirName] t)

/-- The path-lookup denotation of a data root: what each relative path
should contain. -/
def rootLookup (root : DataRoot) (q : Path) : Option FNode :=
  if q = [dbFileName] then root.db.map FNode.file
  else
    match root.uploads with
    | none => none
    | some t =>
      match stripPre [uploadsDirName] q with
      | some r => treeLookup t r
      | none => none

/-- Denotation of extracting `walkTree p t` over `st`: paths extending `p`
are answered by the tree, strict nonempty ancestors of `p` became
directories, and everything else is untouched. -/
def walkDenote (p : Path) (t : UTree) (st : FsStore) (q : Path) : Option FNode :=
  match stripPre p q with
  | some r =>
    match treeLookup t r with
    | some n => some n
    | none => FsStore.lookup st q
  | none => if q ≠ [] ∧ q <+: p then some FNode.dir else FsStore.lookup st q

/-- Denotation of extracting `walkForest p ch` over `st`: when the forest
is nonempty every nonempty prefix of `p` (including `p`) became a
directory; paths strictly extending `p` are answered by the forest;
everything else is untouched. -/
def forestDenote (p : Path) (ch : List (String × UTree)) (st : FsStore) (q : Path) :
    Option FNode :=
  if ch.isEmpty = false ∧ q ≠ [] ∧ q <+: p then some FNode.dir
  else
    match stripPre p q with
    | some (seg :: rest) =>
      match forestLookup ch seg rest with
      | some n => some n
      | none => FsStore.lookup st q
    | _ => FsStore.lookup st q

/-! ## Verifier (verifyBackupData) -/

/-- `FileCheckResult` from the source: {path, exists, size, is_dir,
error}. -/
structure FileCheckResult where
  path : Path
  exists_ : Bool
  size : Int
  isDir : Bool
  error : String
deriving DecidableEq, Repr

/-- `BackupVerificationResult` from the source, without the wall-clock
`verified_at` field. -/
structure BackupVerificationResult where
  valid : Bool
  error : String
  fileChecks : List FileCheckResult
  totalSize : Int
  fileCount : Nat
deriving DecidableEq, Repr

/-- `Stat().Size()` of a node in afero's in-memory filesystem (which
reports 42 for directories). -/
def statSize : FNode → Int
  | FNode.file c => c.length
  | FNode.dir => 42

/-- `Stat().IsDir()` of a node. -/
def statIsDir : FNode → Bool
  | FNode.file _ => false
  | FNode.dir => true

/-- One iteration of the critical-file loop of `verifyBackupData`: stat
the path in the in-memory store; a failed stat is a missing file with the
stat error; for `/smarticky.db` a zero size is flagged as
"database file is empty". -/
def checkPath (mem : FsStore) (p : Path) : FileCheckResult :=
  match FsStore.lookup mem p with
  | none =>
    { path := p, exists_ := false, size := 0, isDir := false, error := "file does not exist" }
  | some n =>
    { path := p, exists_ := true, size := statSize n, isDir := statIsDir n,
      error := if p = [dbFileName] ∧ statSize n = 0 then "database file is empty" else "" }

/-- Bytes written to memory for one entry (`io.Copy` return value;
directories copy nothing). -/
def entrySize : TarEntry → Int
  | TarEntry.dir _ => 0
  | TarEntry.reg _ c => c.length

/-- `verifyBackupData`: extract the archive into a fresh in-memory store,
check the two critical paths `/smarticky.db` and `/uploads`, and declare
the backup valid exactly when every check found its path and carries no
error.  `totalSize` accumulates the bytes written for regular entries and
`fileCount` counts every extracted entry. -/
def verifyBackupData (entries : List TarEntry) : BackupVerificationResult :=
  let mem := extractBackupArchive entries []
  let checks := [checkPath mem [dbFileName], checkPath mem [uploadsDirName]]
  let allValid := checks.all (fun c => c.exists_ && decide (c.error = ""))
  { valid := allValid,
    error := if allValid then "" else "one or more critical files are missing or invalid",
    fileChecks := checks,
    totalSize := (entries.map entrySize).sum,
    fileCount := entries.length }

/-! ## Handler/trace layer

Each handler is a pure function of its stored configuration (`none` when
the config query finds no row), an environment giving the outcome of each
fallible external operation, and the data its external collaborators
would return.  It produces the HTTP response together with the trace of
externally visible operations it performed, in program order; the restore
handlers additionally thread the live data-directory store. -/

/-- A network call to a remote storage backend. -/
inductive NetOp where
  | webdavRead | webdavWrite | webdavList
  | s3Get | s3Put | s3List
deriving DecidableEq, Repr

/-- An externally visible operation of a backup/restore run.
`checkpointWAL` is the `PRAGMA wal_checkpoint(TRUNCATE)` call;
`createArchive` is `createBackupArchive` reading the database file and
uploads tree; `writeSnapshot` writes the pre-restore safety snapshot to
local disk; `extract` overwrites the live data directory;
`cleanup ok` is the retention cleanup call and its outcome. -/
inductive Ev where
  | checkpointWAL
  | createArchive
  | net (op : NetOp)
  | writeSnapshot
  | extract
  | setLastBackupAt
  | cleanup (ok : Bool)
deriving DecidableEq, Repr

/-- The persisted `BackupConfig` row (ent schema). -/
structure GoBackupConfig where
  webdavURL : String
  webdavUser : String
  webdavPassword : String
  s3Endpoint : String
  s3Region : String
  s3Bucket : String
  s3AccessKey : String
  s3SecretKey : String
  autoBackupEnabled : Bool
  backupRetentionDays : Int
  backupMaxCount : Int
deriving DecidableEq, Repr

/-- Outcomes of the fallible external operations. -/
structure Env where
  checkpointOk : Bool
  archiveOk : Bool
  s3ConfigOk : Bool
  webdavWriteOk : Bool
  s3PutOk : Bool
  webdavReadOk : Bool
  s3GetOk : Bool
  webdavListOk : Bool
  s3ListOk : Bool
  snapshotWriteOk : Bool
  cleanupOk : Bool
deriving DecidableEq, Repr

/-- A backup/restore handler response (the JSON bodies of the source). -/
inductive HResp where
  | ok (message : String) (file : String)
  | okRestore (message warning : String) (restartRequired : Bool)
  | err (message : String)
deriving DecidableEq, Repr

/-- `BackupWebDAV`: config row (missing ⇒ "backup not configured"), URL
guard, WAL checkpoint, archive creation, WebDAV write, update of
`last_backup_at`, retention cleanup (failure only logged), success
response with the uploaded filename. -/
def BackupWebDAV (cfg : Option GoBackupConfig) (env : Env) (fname : String) :
    HResp × List Ev :=
  match cfg with
  | none => (HResp.err "backup not configured", [])
  | some config =>
    if config.webdavURL = "" then (HResp.err "WebDAV URL not configured", [])
    else if env.checkpointOk = false then
      (HResp.err "failed to prepare database for backup", [Ev.checkpointWAL])
    else if env.archiveOk = false then
      (HResp.err "failed to create backup", [Ev.checkpointWAL, Ev.createArchive])
    else if env.webdavWriteOk = false then
      (HResp.err "webdav upload failed",
        [Ev.checkpointWAL, Ev.createArchive, Ev.net NetOp.webdavWrite])
    else
      (HResp.ok "backup successful" fname,
        [Ev.checkpointWAL, Ev.createArchive, Ev.net NetOp.webdavWrite,
         Ev.setLastBackupAt, Ev.cleanup env.cleanupOk])

/-- `BackupS3`: config row, the guard
`endpoint == "" || bucket == "" || accessKey == "" || secretKey == ""`
(region is not checked), WAL checkpoint, archive creation, local AWS
config load, S3 put, `last_backup_at` update, retention cleanup (failure
only logged), success response. -/
def BackupS3 (cfg : Option GoBackupConfig) (env : Env) (fname : String) :
    HResp × List Ev :=
  match cfg with
  | none => (HResp.err "backup not configured", [])
  | some config =>
    if config.s3Endpoint = "" ∨ config.s3Bucket = "" ∨ config.s3AccessKey = ""
        ∨ config.s3SecretKey = "" then
      (HResp.err "S3 configuration incomplete", [])
    else if env.checkpointOk = false then
      (HResp.err "failed to prepare database for backup", [Ev.checkpointWAL])
    else if env.archiveOk = false then
      (HResp.err "failed to create backup", [Ev.checkpointWAL, Ev.createArchive])
    else if env.s3ConfigOk = false then
      (HResp.err "failed to create s3 config", [Ev.checkpointWAL, Ev.createArchive])
    else if env.s3PutOk = false then
      (HResp.err "s3 upload failed",
        [Ev.checkpointWAL, Ev.createArchive, Ev.net NetOp.s3Put])
    else
      (HResp.ok "backup successful" fname,
        [Ev.checkpointWAL, Ev.createArchive, Ev.net NetOp.s3Put,
         Ev.setLastBackupAt, Ev.cleanup env.cleanupOk])

/-- The S3 leg of `performAutoBackup`, entered when WebDAV is absent or
its write failed: guarded by `s3_endpoint != "" && s3_bucket != ""`; a
failed AWS config load falls through silently; a successful put updates
`last_backup_at` and runs cleanup. -/
def autoBackupS3Leg (config : GoBackupConfig) (env : Env) (pre : List Ev) : List Ev :=
  if config.s3Endpoint ≠ "" ∧ config.s3Bucket ≠ "" then
    if env.s3ConfigOk then
      if env.s3PutOk then
        pre ++ [Ev.net NetOp.s3Put, Ev.setLastBackupAt, Ev.cleanup env.cleanupOk]
      else pre ++ [Ev.net NetOp.s3Put]
    else pre
  else pre

/-- `performAutoBackup` (the scheduler's unattended run), as its trace:
silently skip without a config row or when auto backup is disabled;
checkpoint; create the archive; try WebDAV first when its URL is set; on
WebDAV failure or absence try S3. -/
def performAutoBackup (cfg : Option GoBackupConfig) (env : Env) : List Ev :=
  match cfg with
  | none => []
  | some config =>
    if config.autoBackupEnabled = false then []
    else if env.checkpointOk = false then [Ev.checkpointWAL]
    else if env.archiveOk = false then [Ev.checkpointWAL, Ev.createArchive]
    else
      if config.webdavURL ≠ "" then
        if env.webdavWriteOk then
          [Ev.checkpointWAL, Ev.createArchive, Ev.net NetOp.webdavWrite,
           Ev.setLastBackupAt, Ev.cleanup env.cleanupOk]
        else
          autoBackupS3Leg config env
            [Ev.checkpointWAL, Ev.createArchive, Ev.net NetOp.webdavWrite]
      else autoBackupS3Leg config env [Ev.checkpointWAL, Ev.createArchive]

/-- `RestoreWebDAV`: config row (missing ⇒ "backup not configured" — the
source validates no WebDAV field here), download, pre-restore snapshot
creation via `createBackupArchive` (no WAL checkpoint precedes it),
snapshot write into the data directory, extraction over the live data
directory, success with the restart warning.  `archive` is the decoded
downloaded archive, `snapName`/`snapBytes` the snapshot's generated
filename and serialized bytes, `st` the live data-directory store. -/
def RestoreWebDAV (cfg : Option GoBackupConfig) (env : Env)
    (archive : List TarEntry) (snapName : String) (snapBytes : List Nat)
    (st : FsStore) : HResp × FsStore × List Ev :=
  match cfg with
  | none => (HResp.err "backup not configured", st, [])
  | some _config =>
    if env.webdavReadOk = false then
      (HResp.err "failed to download", st, [Ev.net NetOp.webdavRead])
    else if env.archiveOk = false then
      (HResp.err "failed to create pre-restore backup", st,
        [Ev.net NetOp.webdavRead, Ev.createArchive])
    else if env.snapshotWriteOk = false then
      (HResp.err "failed to save pre-restore backup", st,
        [Ev.net NetOp.webdavRead, Ev.createArchive, Ev.writeSnapshot])
    else
      (HResp.okRestore "restore successful"
          "Please restart the application for changes to take full effect" true,
        extractBackupArchive archive (FsStore.insert st [snapName] (FNode.file snapBytes)),
        [Ev.net NetOp.webdavRead, Ev.createArchive, Ev.writeSnapshot, Ev.extract])

/-- `RestoreS3`: config row (missing ⇒ "backup not configured" — no S3
field is validated), local AWS config load, S3 download, snapshot
creation (again without checkpoint), snapshot write, extraction, success
with the restart warning. -/
def RestoreS3 (cfg : Option GoBackupConfig) (env : Env)
    (archive : List TarEntry) (snapName : String) (snapBytes : List Nat)
    (st : FsStore) : HResp × FsStore × List Ev :=
  match cfg with
  | none => (HResp.err "backup not configured", st, [])
  | some _config =>
    if env.s3ConfigOk = false then (HResp.err "failed to create s3 config", st, [])
    else if env.s3GetOk = false then
      (HResp.err "failed to download", st, [Ev.net NetOp.s3Get])
    else if env.archiveOk = false then
      (HResp.err "failed to create pre-restore backup", st,
        [Ev.net NetOp.s3Get, Ev.createArchive])
    else if env.snapshotWriteOk = false then
      (HResp.err "failed to save pre-restore backup", st,
        [Ev.net NetOp.s3Get, Ev.createArchive, Ev.writeSnapshot])
    else
      (HResp.okRestore "restore successful"
          "Please restart the application for changes to take full effect" true,
        extractBackupArchive archive (FsStore.insert st [snapName] (FNode.file snapBytes)),
        [Ev.net NetOp.s3Get, Ev.createArchive, Ev.writeSnapshot, Ev.extract])

/-- A listing handler response. -/
inductive ListResp where
  | ok (backups : List BackupFileInfo)
  | err (message : String)
deriving DecidableEq, Repr

/-- `ListWebDAVBackups`: missing config row or empty URL ⇒ "WebDAV not
configured"; otherwise `ReadDir("/")` and the pattern filter. -/
def ListWebDAVBackups (cfg : Option GoBackupConfig) (env : Env)
    (files : List RemoteFile) : ListResp × List Ev :=
  match cfg with
  | none => (ListResp.err "WebDAV not configured", [])
  | some config =>
    if config.webdavURL = "" then (ListResp.err "WebDAV not configured", [])
    else if env.webdavListOk = false then
      (ListResp.err "failed to list files", [Ev.net NetOp.webdavList])
    else (ListResp.ok (listBackupsFilter files), [Ev.net NetOp.webdavList])

/-- `ListS3Backups`: missing config row ⇒ "backup not configured"; empty
endpoint or bucket ⇒ "S3 not configured"; local AWS config load; then
`ListObjectsV2` and the pattern filter. -/
def ListS3Backups (cfg : Option GoBackupConfig) (env : Env)
    (files : List RemoteFile) : ListResp × List Ev :=
  match cfg with
  | none => (ListResp.err "backup not configured", [])
  | some config =>
    if config.s3Endpoint = "" ∨ config.s3Bucket = "" then
      (ListResp.err "S3 not configured", [])
    else if env.s3ConfigOk = false then (ListResp.err "failed to create s3 config", [])
    else if env.s3ListOk = false then
      (ListResp.err "failed to list objects", [Ev.net NetOp.s3List])
    else (ListResp.ok (listBackupsFilter files), [Ev.net NetOp.s3List])

/-- A verification handler response. -/
inductive VerifyResp where
  | ok (result : BackupVerificationResult)
  | err (message : String)
deriving DecidableEq, Repr

/-- `VerifyWebDAVBackup`: empty filename ⇒ "filename is required";
missing config row or empty URL ⇒ "WebDAV not configured"; download;
`verifyBackupData` on the downloaded archive. -/
def VerifyWebDAVBackup (cfg : Option GoBackupConfig) (env : Env)
    (filename : String) (archive : List TarEntry) : VerifyResp × List Ev :=
  if filename = "" then (VerifyResp.err "filename is required", [])
  else
    match cfg with
    | none => (VerifyResp.err "WebDAV not configured", [])
    | some config =>
      if config.webdavURL = "" then (VerifyResp.err "WebDAV not configured", [])
      else if env.webdavReadOk = false then
        (VerifyResp.err "failed to download backup", [Ev.net NetOp.webdavRead])
      else (VerifyResp.ok (verifyBackupData archive), [Ev.net NetOp.webdavRead])

/-- `VerifyS3Backup`: empty filename ⇒ "filename is required"; missing
config row ⇒ "backup not configured"; empty endpoint or bucket ⇒ "S3 not
configured"; local AWS config load; S3 download; `verifyBackupData`. -/
def VerifyS3Backup (cfg : Option GoBackupConfig) (env : Env)
    (filename : String) (archive : List TarEntry) : VerifyResp × List Ev :=
  if filename = "" then (VerifyResp.err "filename is required", [])
  else
    match cfg with
    | none => (VerifyResp.err "backup not configured", [])
    | some config =>
      if config.s3Endpoint = "" ∨ config.s3Bucket = "" then
        (VerifyResp.err "S3 not configured", [])
      else if env.s3ConfigOk = false then
        (VerifyResp.err "failed to create s3 config", [])
      else if env.s3GetOk = false then
        (VerifyResp.err "failed to download backup", [Ev.net NetOp.s3Get])
      else (VerifyResp.ok (verifyBackupData archive), [Ev.net NetOp.s3Get])

/-! ### Concrete fixtures for counterexamples and witnesses -/

/-- A config row whose every backend field is empty (the ent schema's
defaults: all backend strings optional, defaulting to ""). -/
def emptyCfg : GoBackupConfig :=
  { webdavURL := "", webdavUser := "", webdavPassword := "",
    s3Endpoint := "", s3Region := "", s3Bucket := "", s3AccessKey := "",
    s3SecretKey := "", autoBackupEnabled := false,
    backupRetentionDays := 0, backupMaxCount := 0 }

/-- A config row with both backends fully configured and auto backup on. -/
def fullCfg : GoBackupConfig :=
  { webdavURL := "https://dav.example/backups", webdavUser := "u",
    webdavPassword := "p", s3Endpoint := "https://s3.example",
    s3Region := "r", s3Bucket := "b", s3AccessKey := "ak",
    s3SecretKey := "sk", autoBackupEnabled := true,
    backupRetentionDays := 30, backupMaxCount := 3 }

/-- An environment in which every external operation succeeds. -/
def envAllOk : Env :=
  { checkpointOk := true, archiveOk := true, s3ConfigOk := true,
    webdavWriteOk := true, s3PutOk := true, webdavReadOk := true,
    s3GetOk := true, webdavListOk := true, s3ListOk := true,
    snapshotWriteOk := true, cleanupOk := true }

/-- Everything succeeds except the retention cleanup. -/
def envCleanupFail : Env := { envAllOk with cleanupOk := false }

/-- Everything succeeds except the WebDAV download. -/
def envReadFail : Env := { envAllOk with webdavReadOk := false }

/-! ## Theorems: the backup filename pattern (claim C1) -/

/-- `manualBackupPre` has 17 characters, yet the source compares it
against a 19-character slice; `autoBackupPre` has 22 characters, compared
against a 24-character slice.  A list of length 19 (resp. 24) is never
equal to a list of length 17 (resp. 22), so the filter condition is
unsatisfiable: no file name whatsoever matches. -/
theorem matchesBackupPattern_always_false (name : List Char) :
    matchesBackupPattern name = false := by
  have hb : manualBackupPre.length = 17 := by decide
  have ha : autoBackupPre.length = 22 := by decide
  unfold matchesBackupPattern
  rw [Bool.or_eq_false_iff, Bool.and_eq_false_iff, Bool.and_eq_false_iff]
  constructor
  · by_cases h : name.length > 19
    · right
      rw [decide_eq_false_iff_not]
      intro hc
      have hl := congrArg List.length hc
      rw [List.length_take, hb] at hl
      omega
    · left
      simpa using h
  · by_cases h : name.length > 24
    · right
      rw [decide_eq_false_iff_not]
      intro hc
      have hl := congrArg List.length hc
      rw [List.length_take, ha] at hl
      omega
    · left
      simpa using h

/-- Claim C1 (code bug): the listing filter is meant to keep exactly the
remote files whose name begins with `smarticky_backup_` or
`smarticky_auto_backup_` ("Only include files that match backup naming
pattern"), but its condition compares a 19-byte (resp. 24-byte) slice of
the name against the 17-byte (resp. 22-byte) literal, which is never
equal.  Evaluated at a file named
`smarticky_backup_20250101_120000.tar.gz` — a name the backup handler
itself generates — the filter rejects it and the returned listing is
empty, contradicting the claim. -/
theorem listBackupsFilter_drops_prefixed_file :
    manualBackupPre.isPrefixOf c1FailingName = true
    ∧ matchesBackupPattern c1FailingName = false
    ∧ listBackupsFilter [{ name := c1FailingName, size := 1024, modTime := 0 }] = [] := by
  decide

/-! ## Theorems: retention policy (claims C2 and C3) -/

/-- Claim C2, counterexample: in the spec's retention scenario (entries
aged 1, 5, 10, 40, 100 days, `maxAgeDays = 30`, `maxCount = 3`), the
claim asserts the entry aged 10 days is deleted; the cleanup loop keeps
it (it is among the newest three and is younger than 30 days). -/
theorem retention_example_keeps_age10 :
    ['c'] ∉ filesToDelete exampleNow 30 3 (sortNewestFirst exampleEntries) := by
  decide

/-- Claim C2, amended: over the five entries aged 1, 5, 10, 40, 100 days
with `maxAgeDays = 30` and `maxCount = 3`, the cleanup loop deletes
exactly the entries aged 40 and 100 days (named d and e): the count limit
keeps the newest three (ages 1, 5, 10) and the age limit catches exactly
the two entries older than 30 days. -/
theorem retention_example_deletes_40_and_100 :
    filesToDelete exampleNow 30 3 (sortNewestFirst exampleEntries) = [['d'], ['e']] := by
  decide

/-- Claim C3: over any newest-first sorted list of backup entries, the
cleanup loop marks the entry at index `i` for deletion exactly when
(`maxCount > 0` and `i ≥ maxCount`) or (`retentionDays > 0` and the
entry's age strictly exceeds `retentionDays` days); and when both
thresholds are `0`, no entry is marked. -/
theorem retention_marks_iff (now retentionDays maxCount : Int)
    (backups : List BackupEntry)
    (hsorted : List.Chain' (fun a b => b.modTime ≤ a.modTime) backups) :
    (∀ i (h : i < backups.length),
        ((i, backups[i]) ∈ markedForDeletion now retentionDays maxCount backups
          ↔ ((0 < maxCount ∧ maxCount ≤ (i : Int))
              ∨ (0 < retentionDays
                  ∧ retentionDays * nsPerDay < now - backups[i].modTime))))
    ∧ (retentionDays = 0 → maxCount = 0 →
        markedForDeletion now retentionDays maxCount backups = []) := by
  constructor
  · intro i h
    have hmem : (i, backups[i]) ∈ backups.enum := by
      rw [List.mk_mem_enum_iff_getElem?]
      exact List.getElem?_eq_getElem h
    rw [markedForDeletion, List.mem_filter]
    simp only [hmem, true_and, shouldDelete, Bool.or_eq_true, Bool.and_eq_true,
      decide_eq_true_eq]
  · intro hrd hmc
    subst hrd hmc
    simp [markedForDeletion, shouldDelete, List.filter_eq_nil_iff]

/-- Witness for `retention_marks_iff`: with a single entry aged two days,
`retentionDays = 1` and `maxCount = 0`, the entry is marked. -/
theorem retention_marks_iff_witness :
    (0, entryAged 2 ['a']) ∈ markedForDeletion exampleNow 1 0 [entryAged 2 ['a']] :=
  ((retention_marks_iff exampleNow 1 0 [entryAged 2 ['a']] (by simp)).1 0
    (by simp)).mpr (Or.inr (by constructor <;> decide))

/-! ## Theorems: file-store and path lemmas -/

theorem lookup_insert (st : FsStore) (p : Path) (n : FNode) (q : Path) :
    FsStore.lookup (FsStore.insert st p n) q
      = if q = p then some n else FsStore.lookup st q := rfl

theorem stripPre_eq_some : ∀ (p q r : Path), stripPre p q = some r ↔ q = p ++ r
  | [], q, r => by simp [stripPre]
  | a :: as, [], r => by simp [stripPre]
  | a :: as, b :: bs, r => by
    by_cases h : a = b
    · subst h
      rw [show stripPre (a :: as) (a :: bs) = stripPre as bs from by rw [stripPre]; simp]
      rw [stripPre_eq_some as bs r]
      simp
    · rw [show stripPre (a :: as) (b :: bs) = none from by rw [stripPre]; simp [h]]
      simp only [List.cons_append, List.cons.injEq]
      constructor
      · intro hc
        exact absurd hc (by simp)
      · rintro ⟨hb, _⟩
        exact absurd hb.symm h

theorem stripPre_append (p r : Path) : stripPre p (p ++ r) = some r :=
  (stripPre_eq_some p (p ++ r) r).2 rfl

theorem stripPre_self (p : Path) : stripPre p p = some [] := by
  have h := stripPre_append p []
  simpa using h

theorem lookup_mkdirAllFrom : ∀ (rest : Path) (st : FsStore) (pre q : Path),
    FsStore.lookup (mkdirAllFrom st pre rest) q
      = if ancestorIn pre rest q then some FNode.dir else FsStore.lookup st q
  | [], st, pre, q => by
    rw [show ancestorIn pre [] q = false from rfl]
    simp [mkdirAllFrom]
  | seg :: rest', st, pre, q => by
    rw [mkdirAllFrom, lookup_mkdirAllFrom rest' _ (pre ++ [seg]) q]
    rw [show ancestorIn pre (seg :: rest') q
      = (decide (q = pre ++ [seg]) || ancestorIn (pre ++ [seg]) rest' q) from rfl]
    rcases h1 : ancestorIn (pre ++ [seg]) rest' q with _ | _
    · rw [lookup_insert]
      by_cases h2 : q = pre ++ [seg] <;> simp [h2]
    · simp

theorem ancestorIn_iff : ∀ (rest pre q : Path),
    ancestorIn pre rest q = true ↔ ∃ r, r ≠ [] ∧ r <+: rest ∧ q = pre ++ r
  | [], pre, q => by
    rw [show ancestorIn pre [] q = false from rfl]
    simp only [Bool.false_eq_true, false_iff]
    rintro ⟨r, hr0, hr1, _⟩
    rw [List.prefix_nil] at hr1
    exact hr0 hr1
  | seg :: rest', pre, q => by
    rw [show ancestorIn pre (seg :: rest') q
      = (decide (q = pre ++ [seg]) || ancestorIn (pre ++ [seg]) rest' q) from rfl]
    rw [Bool.or_eq_true, decide_eq_true_eq, ancestorIn_iff rest' (pre ++ [seg]) q]
    constructor
    · rintro (h | ⟨r', hr0, hr1, hr2⟩)
      · exact ⟨[seg], by simp, by simp [List.cons_prefix_cons], h⟩
      · refine ⟨seg :: r', by simp, ?_, by simpa [List.append_assoc] using hr2⟩
        rw [List.cons_prefix_cons]
        exact ⟨rfl, hr1⟩
    · rintro ⟨r, hr0, hr1, hr2⟩
      match r, hr0 with
      | x :: xs, _ =>
        rw [List.cons_prefix_cons] at hr1
        obtain ⟨rfl, hxs⟩ := hr1
        cases xs with
        | nil => exact Or.inl (by simpa using hr2)
        | cons y ys =>
          exact Or.inr ⟨y :: ys, by simp, hxs, by simpa [List.append_assoc] using hr2⟩

theorem lookup_mkdirAll (st : FsStore) (p q : Path) :
    FsStore.lookup (mkdirAll st p) q
      = if q ≠ [] ∧ q <+: p then some FNode.dir else FsStore.lookup st q := by
  rw [mkdirAll, lookup_mkdirAllFrom]
  by_cases h : q ≠ [] ∧ q <+: p
  · rw [if_pos h, if_pos]
    rw [ancestorIn_iff]
    exact ⟨q, h.1, h.2, by simp⟩
  · rw [if_neg h, if_neg]
    intro hc
    rw [ancestorIn_iff] at hc
    obtain ⟨r, hr0, hr1, hr2⟩ := hc
    rw [List.nil_append] at hr2
    subst hr2
    exact h ⟨hr0, hr1⟩

theorem lookup_extractOne_dir (st : FsStore) (p q : Path) :
    FsStore.lookup (extractOne st (TarEntry.dir p)) q
      = if q ≠ [] ∧ q <+: p then some FNode.dir else FsStore.lookup st q :=
  lookup_mkdirAll st p q

theorem lookup_extractOne_reg (st : FsStore) (p : Path) (c : List Nat) (q : Path) :
    FsStore.lookup (extractOne st (TarEntry.reg p c)) q
      = if q = p then some (FNode.file c)
        else if q ≠ [] ∧ q <+: p.dropLast then some FNode.dir
        else FsStore.lookup st q := by
  rw [show extractOne st (TarEntry.reg p c)
    = FsStore.insert (mkdirAll st p.dropLast) p (FNode.file c) from rfl]
  rw [lookup_insert, lookup_mkdirAll]

theorem extract_cons (e : TarEntry) (es : List TarEntry) (st : FsStore) :
    extractBackupArchive (e :: es) st = extractBackupArchive es (extractOne st e) := rfl

theorem extract_append (l₁ l₂ : List TarEntry) (st : FsStore) :
    extractBackupArchive (l₁ ++ l₂) st
      = extractBackupArchive l₂ (extractBackupArchive l₁ st) :=
  List.foldl_append extractOne st l₁ l₂

theorem prefix_dropLast_of_proper {q p : Path} (h : q <+: p) (hne : q ≠ p) :
    q <+: p.dropLast := by
  have hdp := List.dropLast_prefix p
  refine List.prefix_of_prefix_length_le h hdp ?_
  have hlt : q.length < p.length := by
    rcases lt_or_eq_of_le h.length_le with hl | hl
    · exact hl
    · exact absurd (h.eq_of_length hl) hne
  rw [List.length_dropLast]
  omega

theorem forestLookup_not_contains : ∀ (ch : List (String × UTree)) (n : String) (r : Path),
    containsKey n ch = false → forestLookup ch n r = none
  | [], _, _, _ => rfl
  | (m, t) :: rest, n, r, h => by
    rw [show containsKey n ((m, t) :: rest)
      = (decide (n = m) || containsKey n rest) from rfl] at h
    rw [Bool.or_eq_false_iff, decide_eq_false_iff_not] at h
    rw [forestLookup, if_neg h.1]
    exact forestLookup_not_contains rest n r h.2

theorem wfForest_cons {n : String} {t : UTree} {rest : List (String × UTree)}
    (h : wfForest ((n, t) :: rest) = true) :
    wfTree t = true ∧ containsKey n rest = false ∧ wfForest rest = true := by
  rw [wfForest] at h
  simp only [Bool.and_eq_true, Bool.not_eq_true'] at h
  exact ⟨h.1.1, h.1.2, h.2⟩

/-! ## Theorems: extraction of a walked tree -/

/-- Main lemma, by strong induction on size: looking anything up after
extracting the walk of a well-formed tree (resp. forest) rooted at `p`
matches the corresponding denotation. -/
theorem walk_extract_main : ∀ k : Nat,
    (∀ (t : UTree) (p : Path) (st : FsStore) (q : Path), sizeOf t ≤ k → p ≠ [] →
      wfTree t = true →
      FsStore.lookup (extractBackupArchive (walkTree p t) st) q = walkDenote p t st q)
    ∧ (∀ (ch : List (String × UTree)) (p : Path) (st : FsStore) (q : Path),
      sizeOf ch ≤ k → p ≠ [] → wfForest ch = true →
      FsStore.lookup (extractBackupArchive (walkForest p ch) st) q
        = forestDenote p ch st q) := by
  intro k
  induction k using Nat.strong_induction_on with
  | _ k IH =>
    constructor
    · intro t p st q hk hp hwf
      cases t with
      | file c =>
        rw [show walkTree p (UTree.file c) = [TarEntry.reg p c] from rfl]
        rw [show extractBackupArchive [TarEntry.reg p c] st
          = extractOne st (TarEntry.reg p c) from rfl]
        rw [lookup_extractOne_reg, walkDenote]
        rcases hsp : stripPre p q with _ | r
        · dsimp only
          have hqp : q ≠ p := fun h => by rw [h, stripPre_self] at hsp; cases hsp
          rw [if_neg hqp]
          by_cases hcond : q ≠ [] ∧ q <+: p
          · rw [if_pos hcond, if_pos ⟨hcond.1, prefix_dropLast_of_proper hcond.2 hqp⟩]
          · rw [if_neg hcond, if_neg]
            intro hc
            exact hcond ⟨hc.1, hc.2.trans (List.dropLast_prefix p)⟩
        · have hq : q = p ++ r := (stripPre_eq_some p q r).1 hsp
          cases r with
          | nil =>
            dsimp only [treeLookup]
            rw [if_pos (by simpa using hq)]
          | cons x xs =>
            dsimp only [treeLookup]
            have hqp : q ≠ p := by
              rw [hq]
              simp
            rw [if_neg hqp, if_neg]
            intro hc
            have hlen := hc.2.length_le
            rw [hq, List.length_dropLast, List.length_append] at hlen
            simp only [List.length_cons] at hlen
            omega
      | dir ch =>
        have hch : sizeOf ch < k := by
          have hs := UTree.dir.sizeOf_spec ch
          omega
        rw [show walkTree p (UTree.dir ch) = TarEntry.dir p :: walkForest p ch from rfl]
        rw [extract_cons]
        rw [show extractOne st (TarEntry.dir p) = mkdirAll st p from rfl]
        rw [(IH (sizeOf ch) hch).2 ch p (mkdirAll st p) q le_rfl hp hwf]
        rw [forestDenote, walkDenote]
        rcases hsp : stripPre p q with _ | r
        · dsimp only
          rw [lookup_mkdirAll]
          by_cases hcond : q ≠ [] ∧ q <+: p
          · rcases hche : ch.isEmpty with _ | _ <;> simp [hcond, hche]
          · simp [hcond]
        · have hq : q = p ++ r := (stripPre_eq_some p q r).1 hsp
          cases r with
          | nil =>
            rw [List.append_nil] at hq
            dsimp only [treeLookup]
            rw [lookup_mkdirAll]
            have hcond : q ≠ [] ∧ q <+: p := by
              constructor
              · rw [hq]; exact hp
              · rw [hq]
            rcases hche : ch.isEmpty with _ | _ <;> simp [hcond, hche]
          | cons seg r' =>
            have hnpre : ¬ q <+: p := by
              intro hc
              have hlen := hc.length_le
              rw [hq, List.length_append] at hlen
              simp only [List.length_cons] at hlen
              omega
            dsimp only [treeLookup]
            rw [lookup_mkdirAll, if_neg (fun hc => hnpre hc.2.2)]
            rw [if_neg (fun hc : q ≠ [] ∧ q <+: p => hnpre hc.2)]
    · intro ch p st q hk hp hwf
      cases ch with
      | nil =>
        rw [show walkForest p ([] : List (String × UTree)) = [] from rfl]
        rw [show extractBackupArchive [] st = st from rfl]
        rw [forestDenote]
        rw [if_neg (fun hc : ([] : List (String × UTree)).isEmpty = false ∧ _ => by cases hc.1)]
        rcases hsp : stripPre p q with _ | r
        · rfl
        · cases r with
          | nil => rfl
          | cons seg r' => dsimp only [forestLookup]
      | cons head rest =>
        obtain ⟨n, t⟩ := head
        obtain ⟨hwt, hck, hwr⟩ := wfForest_cons hwf
        have ht : sizeOf t < k := by
          have h1 := List.cons.sizeOf_spec (n, t) rest
          have h2 := Prod.mk.sizeOf_spec n t
          omega
        have hrest : sizeOf rest < k := by
          have h1 := List.cons.sizeOf_spec (n, t) rest
          omega
        rw [show walkForest p ((n, t) :: rest)
          = walkTree (p ++ [n]) t ++ walkForest p rest from rfl]
        rw [extract_append]
        rw [(IH (sizeOf rest) hrest).2 rest p _ q le_rfl hp hwr]
        rw [forestDenote, forestDenote]
        have htree : FsStore.lookup (extractBackupArchive (walkTree (p ++ [n]) t) st) q
            = walkDenote (p ++ [n]) t st q :=
          (IH (sizeOf t) ht).1 t (p ++ [n]) st q le_rfl (by simp) hwt
        rw [htree]
        by_cases hA : q ≠ [] ∧ q <+: p
        · conv_rhs => rw [if_pos (show (((n, t) :: rest).isEmpty = false) ∧ q ≠ [] ∧ q <+: p
            from ⟨rfl, hA.1, hA.2⟩)]
          have hwd : walkDenote (p ++ [n]) t st q = some FNode.dir := by
            rw [walkDenote]
            have hspn : stripPre (p ++ [n]) q = none := by
              rcases h2 : stripPre (p ++ [n]) q with _ | r2
              · rfl
              · exfalso
                have hq2 : q = (p ++ [n]) ++ r2 := (stripPre_eq_some _ q r2).1 h2
                have hlen := hA.2.length_le
                rw [hq2] at hlen
                simp only [List.length_append, List.length_cons, List.length_nil] at hlen
                omega
            rw [hspn]
            dsimp only
            rw [if_pos ⟨hA.1, hA.2.trans (List.prefix_append p [n])⟩]
          rcases hre : rest.isEmpty with _ | _
          · rw [if_pos (show (false = false) ∧ q ≠ [] ∧ q <+: p from ⟨rfl, hA.1, hA.2⟩)]
          · rw [if_neg (fun hc : (true = false) ∧ q ≠ [] ∧ q <+: p => Bool.noConfusion hc.1)]
            rcases hsp : stripPre p q with _ | r
            · dsimp only
              exact hwd
            · cases r with
              | nil =>
                dsimp only
                exact hwd
              | cons seg r' =>
                exfalso
                have hq : q = p ++ seg :: r' := (stripPre_eq_some p q _).1 hsp
                have hlen := hA.2.length_le
                rw [hq, List.length_append] at hlen
                simp only [List.length_cons] at hlen
                omega
        · conv_rhs => rw [if_neg
            (fun hc : (((n, t) :: rest).isEmpty = false) ∧ q ≠ [] ∧ q <+: p =>
              hA ⟨hc.2.1, hc.2.2⟩)]
          rw [if_neg
            (fun hc : (rest.isEmpty = false) ∧ q ≠ [] ∧ q <+: p => hA ⟨hc.2.1, hc.2.2⟩)]
          rcases hsp : stripPre p q with _ | r
          · dsimp only
            have hspn : stripPre (p ++ [n]) q = none := by
              rcases h2 : stripPre (p ++ [n]) q with _ | r2
              · rfl
              · exfalso
                have hq2 : q = (p ++ [n]) ++ r2 := (stripPre_eq_some _ q r2).1 h2
                rw [List.append_assoc] at hq2
                rw [hq2, stripPre_append] at hsp
                cases hsp
            rw [walkDenote, hspn]
            dsimp only
            rw [if_neg]
            intro hc
            rcases List.prefix_concat_iff.1 hc.2 with hqe | hqp
            · rw [hqe, stripPre_append] at hsp
              cases hsp
            · exact hA ⟨hc.1, hqp⟩
          · have hq : q = p ++ r := (stripPre_eq_some p q r).1 hsp
            cases r with
            | nil =>
              exfalso
              rw [List.append_nil] at hq
              refine hA ⟨?_, ?_⟩
              · rw [hq]; exact hp
              · rw [hq]
            | cons seg r' =>
              dsimp only [forestLookup]
              by_cases hsegn : seg = n
              · subst hsegn
                rw [if_pos rfl]
                rw [forestLookup_not_contains rest seg r' hck]
                dsimp only
                rw [walkDenote]
                have hq2 : q = (p ++ [seg]) ++ r' := by
                  rw [hq, List.append_assoc]
                  rfl
                rw [hq2, stripPre_append]
              · rw [if_neg hsegn]
                rcases hfl : forestLookup rest seg r' with _ | m
                · dsimp only
                  rw [walkDenote]
                  have hspn : stripPre (p ++ [n]) q = none := by
                    rcases h2 : stripPre (p ++ [n]) q with _ | r2
                    · rfl
                    · exfalso
                      have hq2 : q = (p ++ [n]) ++ r2 := (stripPre_eq_some _ q r2).1 h2
                      rw [List.append_assoc] at hq2
                      rw [hq] at hq2
                      have hcc := List.append_cancel_left hq2
                      simp only [List.cons_append, List.nil_append, List.cons.injEq] at hcc
                      exact hsegn hcc.1
                  rw [hspn]
                  dsimp only
                  rw [if_neg]
                  intro hc
                  rcases List.prefix_concat_iff.1 hc.2 with hqe | hqp
                  · rw [hq] at hqe
                    have hcc := List.append_cancel_left hqe
                    simp only [List.cons.injEq] at hcc
                    exact hsegn hcc.1
                  · have hlen := hqp.length_le
                    rw [hq, List.length_append] at hlen
                    simp only [List.length_cons] at hlen
                    omega
                · rfl

/-- Corollary of `walk_extract_main` for a single tree. -/
theorem lookup_extract_walkTree (t : UTree) (p : Path) (st : FsStore) (q : Path)
    (hp : p ≠ []) (hwf : wfTree t = true) :
    FsStore.lookup (extractBackupArchive (walkTree p t) st) q = walkDenote p t st q :=
  (walk_extract_main (sizeOf t)).1 t p st q le_rfl hp hwf
/-! ## Theorems: archive codec round-trip (claims C8 and C9) -/

/-- Claim C8: for every data root consisting of the primary database file
plus a well-formed uploads subtree, extracting the archive produced by
`createBackupArchive` into an empty data root reproduces exactly the
original tree: every relative path answers with the same node (same byte
contents for files, hence the same sizes) and paths outside the tree stay
absent. -/
theorem create_extract_roundtrip (db : List Nat) (t : UTree) (ar : List TarEntry)
    (hwf : wfTree t = true)
    (hc : createBackupArchive ⟨some db, some t⟩ = some ar) (q : Path) :
    FsStore.lookup (extractBackupArchive ar []) q = rootLookup ⟨some db, some t⟩ q := by
  have hc2 : ar = TarEntry.reg [dbFileName] db :: walkTree [uploadsDirName] t := by
    have hrfl : createBackupArchive ⟨some db, some t⟩
        = some (TarEntry.reg [dbFileName] db :: walkTree [uploadsDirName] t) := rfl
    rw [hrfl] at hc
    injection hc with hc
    exact hc.symm
  subst hc2
  rw [extract_cons]
  rw [lookup_extract_walkTree t [uploadsDirName] _ q (by simp) hwf]
  rw [walkDenote, rootLookup]
  rcases hsp : stripPre [uploadsDirName] q with _ | r
  · dsimp only
    have hq1 : ¬(q ≠ [] ∧ q <+: [uploadsDirName]) := by
      rintro ⟨hq0, hq2⟩
      rcases List.prefix_concat_iff.1 (show q <+: [] ++ [uploadsDirName] from hq2)
        with hqe | hqp
      · rw [List.nil_append] at hqe
        rw [hqe] at hsp
        rw [stripPre_self] at hsp
        cases hsp
      · rw [List.prefix_nil] at hqp
        exact hq0 hqp
    rw [if_neg hq1, lookup_extractOne_reg]
    by_cases hqdb : q = [dbFileName]
    · rw [if_pos hqdb, if_pos hqdb]
      rfl
    · rw [if_neg hqdb, if_neg hqdb]
      rw [if_neg (fun hcc : q ≠ [] ∧ q <+: List.dropLast [dbFileName] => by
        have := hcc.2
        rw [show List.dropLast [dbFileName] = [] from rfl, List.prefix_nil] at this
        exact hcc.1 this)]
      rfl
  · dsimp only
    have hq : q = [uploadsDirName] ++ r := (stripPre_eq_some _ q r).1 hsp
    have hqdb : q ≠ [dbFileName] := by
      rw [hq]
      intro hcc
      rw [List.cons_append, List.nil_append] at hcc
      have hhd := List.head_eq_of_cons_eq hcc
      exact absurd hhd (by decide)
    rw [if_neg hqdb]
    rcases htl : treeLookup t r with _ | m
    · dsimp only
      rw [lookup_extractOne_reg, if_neg hqdb]
      rw [if_neg (fun hcc : q ≠ [] ∧ q <+: List.dropLast [dbFileName] => by
        have := hcc.2
        rw [show List.dropLast [dbFileName] = [] from rfl, List.prefix_nil] at this
        exact hcc.1 this)]
      rfl
    · rfl

/-- A small concrete uploads tree for the round-trip witness. -/
def exampleTree : UTree :=
  UTree.dir [("a.png", UTree.file [7, 8]),
             ("sub", UTree.dir [("b.txt", UTree.file [9])])]

/-- Witness for `create_extract_roundtrip`: on a concrete two-level
uploads tree, extraction of the created archive answers a nested path
with the original file. -/
theorem create_extract_roundtrip_witness :
    wfTree exampleTree = true
    ∧ FsStore.lookup
        (extractBackupArchive
          (TarEntry.reg [dbFileName] [1, 2] :: walkTree [uploadsDirName] exampleTree) [])
        [uploadsDirName, "sub", "b.txt"]
      = rootLookup ⟨some [1, 2], some exampleTree⟩ [uploadsDirName, "sub", "b.txt"] := by
  constructor
  · simp [exampleTree, wfTree, wfForest, containsKey]
  · exact create_extract_roundtrip [1, 2] exampleTree _
      (by simp [exampleTree, wfTree, wfForest, containsKey]) rfl _

/-- Claim C9: when the uploads directory does not exist under the data
directory, `createBackupArchive` still succeeds given the database file,
and the archive holds exactly the single `smarticky.db` entry — no
uploads entries. -/
theorem createBackupArchive_without_uploads (db : List Nat) :
    createBackupArchive ⟨some db, none⟩ = some [TarEntry.reg [dbFileName] db] := rfl

/-! ## Theorems: verifier (claim C6) -/

/-- Claim C6: `verifyBackupData` returns `valid = true` exactly when the
extracted archive contains `/smarticky.db` with nonzero stat size and
contains `/uploads`, each check carrying no error; and an archive whose
`smarticky.db` entry has zero bytes yields `valid = false` with a
`fileChecks` entry for that path carrying a non-empty error. -/
theorem verify_valid_iff_and_flags_empty_db (entries : List TarEntry) :
    ((verifyBackupData entries).valid = true ↔
      ((∃ n, FsStore.lookup (extractBackupArchive entries []) [dbFileName] = some n
          ∧ statSize n ≠ 0)
        ∧ ∃ m, FsStore.lookup (extractBackupArchive entries []) [uploadsDirName] = some m))
    ∧ (FsStore.lookup (extractBackupArchive entries []) [dbFileName]
          = some (FNode.file []) →
        (verifyBackupData entries).valid = false
        ∧ ∃ chk ∈ (verifyBackupData entries).fileChecks,
            chk.path = [dbFileName] ∧ chk.error ≠ "") := by
  have hne : ¬ uploadsDirName = dbFileName := by decide
  constructor
  · rcases hdb : FsStore.lookup (extractBackupArchive entries []) [dbFileName] with _ | n
    · simp [verifyBackupData, checkPath, hdb]
    · rcases hup : FsStore.lookup (extractBackupArchive entries []) [uploadsDirName]
        with _ | m
      · by_cases hsz : statSize n = 0 <;>
          simp [verifyBackupData, checkPath, hdb, hup, hsz, hne]
      · by_cases hsz : statSize n = 0 <;>
          simp [verifyBackupData, checkPath, hdb, hup, hsz, hne]
  · intro h
    constructor
    · simp [verifyBackupData, checkPath, h, statSize]
    · refine ⟨checkPath (extractBackupArchive entries []) [dbFileName], ?_, ?_, ?_⟩
      · simp [verifyBackupData]
      · simp [checkPath, h]
      · simp [checkPath, h, statSize]

/-- Witness for `verify_valid_iff_and_flags_empty_db`: an archive whose
`smarticky.db` entry is empty verifies invalid with a non-empty error on
that path. -/
theorem verify_flags_empty_db_witness :
    (verifyBackupData [TarEntry.reg [dbFileName] [], TarEntry.dir [uploadsDirName]]).valid
        = false
    ∧ ∃ chk ∈ (verifyBackupData
        [TarEntry.reg [dbFileName] [], TarEntry.dir [uploadsDirName]]).fileChecks,
        chk.path = [dbFileName] ∧ chk.error ≠ "" :=
  (verify_valid_iff_and_flags_empty_db
    [TarEntry.reg [dbFileName] [], TarEntry.dir [uploadsDirName]]).2 rfl

/-! ## Theorems: checkpoint-before-archive ordering (claim C4) -/

/-- Claim C4, counterexample: during a fully successful WebDAV restore,
the pre-restore safety snapshot is created (`createArchive` appears in
the trace) yet no WAL checkpoint whatsoever occurs — contradicting
"every archive creation is preceded by exactly one WAL checkpoint". -/
theorem restore_snapshot_without_checkpoint :
    Ev.createArchive ∈ (RestoreWebDAV (some fullCfg) envAllOk [] "snap" [] []).2.2
    ∧ (RestoreWebDAV (some fullCfg) envAllOk [] "snap" [] []).2.2.count Ev.checkpointWAL
        = 0 := by
  decide

set_option maxHeartbeats 1000000 in
/-- Claim C4, amended: in the manual backup handlers and the automatic
backup run, whenever `createBackupArchive` reads the database
(`createArchive` in the trace), exactly one WAL checkpoint precedes it —
the events before it are exactly `[checkpointWAL]`, and that checkpoint
completed successfully (`env.checkpointOk = true`); the restore handlers,
by contrast, create their pre-restore safety snapshot with no checkpoint
at all. -/
theorem checkpoint_before_archive (cfg : GoBackupConfig) (env : Env)
    (fname snapName : String) (archive : List TarEntry) (snapBytes : List Nat)
    (st : FsStore) :
    (Ev.createArchive ∈ (BackupWebDAV (some cfg) env fname).2 →
      env.checkpointOk = true
      ∧ ∃ l₂, (BackupWebDAV (some cfg) env fname).2
          = [Ev.checkpointWAL] ++ Ev.createArchive :: l₂)
    ∧ (Ev.createArchive ∈ (BackupS3 (some cfg) env fname).2 →
      env.checkpointOk = true
      ∧ ∃ l₂, (BackupS3 (some cfg) env fname).2
          = [Ev.checkpointWAL] ++ Ev.createArchive :: l₂)
    ∧ (Ev.createArchive ∈ performAutoBackup (some cfg) env →
      env.checkpointOk = true
      ∧ ∃ l₂, performAutoBackup (some cfg) env
          = [Ev.checkpointWAL] ++ Ev.createArchive :: l₂)
    ∧ (Ev.createArchive ∈ (RestoreWebDAV (some cfg) env archive snapName snapBytes st).2.2 →
      (RestoreWebDAV (some cfg) env archive snapName snapBytes st).2.2.count
          Ev.checkpointWAL = 0)
    ∧ (Ev.createArchive ∈ (RestoreS3 (some cfg) env archive snapName snapBytes st).2.2 →
      (RestoreS3 (some cfg) env archive snapName snapBytes st).2.2.count
          Ev.checkpointWAL = 0) := by
  refine ⟨?_, ?_, ?_, ?_, ?_⟩
  · simp only [BackupWebDAV]
    split_ifs <;> intro hmem <;>
      first
        | exact ⟨by simp_all, _, rfl⟩
        | simp at hmem
  · simp only [BackupS3]
    split_ifs <;> intro hmem <;>
      first
        | exact ⟨by simp_all, _, rfl⟩
        | simp at hmem
  · simp only [performAutoBackup, autoBackupS3Leg]
    split_ifs <;> intro hmem <;>
      first
        | exact ⟨by simp_all, _, rfl⟩
        | simp at hmem
  · simp only [RestoreWebDAV]
    split_ifs <;> intro hmem <;> simp [List.count_eq_zero]
  · simp only [RestoreS3]
    split_ifs <;> intro hmem <;> simp [List.count_eq_zero]

/-- Witness for `checkpoint_before_archive`: a fully successful manual
WebDAV backup has exactly one checkpoint, directly before the archive
read. -/
theorem checkpoint_before_archive_witness :
    envAllOk.checkpointOk = true
    ∧ ∃ l₂, (BackupWebDAV (some fullCfg) envAllOk "f").2
        = [Ev.checkpointWAL] ++ Ev.createArchive :: l₂ :=
  (checkpoint_before_archive fullCfg envAllOk "f" "s" [] [] []).1 (by decide)

/-! ## Theorems: restore failure semantics (claim C5) -/

/-- Claim C5: during restore (WebDAV or S3), failure of the download, of
the pre-restore snapshot creation, or of the snapshot write to local disk
yields an error response with the live data-directory store unchanged and
no extraction event; and extraction, whenever it occurs, happens strictly
after the safety snapshot was successfully written. -/
theorem restore_aborts_cleanly (cfg : GoBackupConfig) (env : Env)
    (archive : List TarEntry) (snapName : String) (snapBytes : List Nat) (st : FsStore) :
    ((env.webdavReadOk = false ∨ env.archiveOk = false ∨ env.snapshotWriteOk = false) →
      (∃ m, (RestoreWebDAV (some cfg) env archive snapName snapBytes st).1 = HResp.err m)
      ∧ (RestoreWebDAV (some cfg) env archive snapName snapBytes st).2.1 = st
      ∧ Ev.extract ∉ (RestoreWebDAV (some cfg) env archive snapName snapBytes st).2.2)
    ∧ ((env.s3GetOk = false ∨ env.archiveOk = false ∨ env.snapshotWriteOk = false) →
      (∃ m, (RestoreS3 (some cfg) env archive snapName snapBytes st).1 = HResp.err m)
      ∧ (RestoreS3 (some cfg) env archive snapName snapBytes st).2.1 = st
      ∧ Ev.extract ∉ (RestoreS3 (some cfg) env archive snapName snapBytes st).2.2)
    ∧ (Ev.extract ∈ (RestoreWebDAV (some cfg) env archive snapName snapBytes st).2.2 →
      env.snapshotWriteOk = true
      ∧ ∃ l₁ l₂, (RestoreWebDAV (some cfg) env archive snapName snapBytes st).2.2
          = l₁ ++ Ev.writeSnapshot :: l₂ ∧ Ev.extract ∉ l₁ ∧ Ev.extract ∈ l₂)
    ∧ (Ev.extract ∈ (RestoreS3 (some cfg) env archive snapName snapBytes st).2.2 →
      env.snapshotWriteOk = true
      ∧ ∃ l₁ l₂, (RestoreS3 (some cfg) env archive snapName snapBytes st).2.2
          = l₁ ++ Ev.writeSnapshot :: l₂ ∧ Ev.extract ∉ l₁ ∧ Ev.extract ∈ l₂) := by
  refine ⟨?_, ?_, ?_, ?_⟩
  · simp only [RestoreWebDAV]
    split_ifs <;> intro hfail <;>
      first
        | exact ⟨⟨_, rfl⟩, rfl, by simp⟩
        | simp_all
  · simp only [RestoreS3]
    split_ifs <;> intro hfail <;>
      first
        | exact ⟨⟨_, rfl⟩, rfl, by simp⟩
        | simp_all
  · simp only [RestoreWebDAV]
    split_ifs <;> intro hmem <;>
      first
        | exact ⟨by simp_all, [Ev.net NetOp.webdavRead, Ev.createArchive], [Ev.extract],
            rfl, by simp, by simp⟩
        | simp at hmem
  · simp only [RestoreS3]
    split_ifs <;> intro hmem <;>
      first
        | exact ⟨by simp_all, [Ev.net NetOp.s3Get, Ev.createArchive], [Ev.extract],
            rfl, by simp, by simp⟩
        | simp at hmem

/-- Witness for `restore_aborts_cleanly`: a WebDAV restore whose download
fails errors out, leaves the (empty) store untouched and never extracts. -/
theorem restore_aborts_cleanly_witness :
    (∃ m, (RestoreWebDAV (some fullCfg) envReadFail [] "snap" [] []).1 = HResp.err m)
    ∧ (RestoreWebDAV (some fullCfg) envReadFail [] "snap" [] []).2.1 = []
    ∧ Ev.extract ∉ (RestoreWebDAV (some fullCfg) envReadFail [] "snap" [] []).2.2 :=
  (restore_aborts_cleanly fullCfg envReadFail [] "snap" [] []).1 (Or.inl rfl)

/-! ## Theorems: "not configured" guards (claim C7) -/

/-- Claim C7, counterexample: `RestoreWebDAV` with a present config row
whose WebDAV URL (and every other backend field) is empty does not return
a "not configured" error — it goes ahead and attempts the network
download. -/
theorem restore_attempts_network_without_config_fields :
    emptyCfg.webdavURL = ""
    ∧ Ev.net NetOp.webdavRead ∈ (RestoreWebDAV (some emptyCfg) envAllOk [] "snap" [] []).2.2
    ∧ (RestoreWebDAV (some emptyCfg) envAllOk [] "snap" [] []).1
        ≠ HResp.err "backup not configured" := by
  decide

/-- Claim C7, amended: the backup, list and verify handlers return a
"not configured" error and attempt no external operation when their
backend's required fields are missing; the restore handlers, however,
only check that a config row exists — given one, `RestoreWebDAV` always
attempts the WebDAV download and `RestoreS3` attempts the S3 download as
soon as the local AWS config load succeeds, regardless of the stored
field values. -/
theorem not_configured_guards (cfg : GoBackupConfig) (env : Env)
    (fname filename snapName : String) (files : List RemoteFile)
    (archive : List TarEntry) (snapBytes : List Nat) (st : FsStore) :
    (cfg.webdavURL = "" →
      (BackupWebDAV (some cfg) env fname).1 = HResp.err "WebDAV URL not configured"
      ∧ (BackupWebDAV (some cfg) env fname).2 = [])
    ∧ ((cfg.s3Endpoint = "" ∨ cfg.s3Bucket = "" ∨ cfg.s3AccessKey = ""
          ∨ cfg.s3SecretKey = "") →
      (BackupS3 (some cfg) env fname).1 = HResp.err "S3 configuration incomplete"
      ∧ (BackupS3 (some cfg) env fname).2 = [])
    ∧ (cfg.webdavURL = "" →
      (ListWebDAVBackups (some cfg) env files).1 = ListResp.err "WebDAV not configured"
      ∧ (ListWebDAVBackups (some cfg) env files).2 = [])
    ∧ ((cfg.s3Endpoint = "" ∨ cfg.s3Bucket = "") →
      (ListS3Backups (some cfg) env files).1 = ListResp.err "S3 not configured"
      ∧ (ListS3Backups (some cfg) env files).2 = [])
    ∧ (filename ≠ "" → cfg.webdavURL = "" →
      (VerifyWebDAVBackup (some cfg) env filename archive).1
          = VerifyResp.err "WebDAV not configured"
      ∧ (VerifyWebDAVBackup (some cfg) env filename archive).2 = [])
    ∧ (filename ≠ "" → (cfg.s3Endpoint = "" ∨ cfg.s3Bucket = "") →
      (VerifyS3Backup (some cfg) env filename archive).1
          = VerifyResp.err "S3 not configured"
      ∧ (VerifyS3Backup (some cfg) env filename archive).2 = [])
    ∧ Ev.net NetOp.webdavRead
        ∈ (RestoreWebDAV (some cfg) env archive snapName snapBytes st).2.2
    ∧ (env.s3ConfigOk = true →
      Ev.net NetOp.s3Get ∈ (RestoreS3 (some cfg) env archive snapName snapBytes st).2.2) := by
  refine ⟨?_, ?_, ?_, ?_, ?_, ?_, ?_, ?_⟩
  · intro h
    simp [BackupWebDAV, h]
  · intro h
    rw [show BackupS3 (some cfg) env fname
      = if cfg.s3Endpoint = "" ∨ cfg.s3Bucket = "" ∨ cfg.s3AccessKey = ""
            ∨ cfg.s3SecretKey = ""
        then (HResp.err "S3 configuration incomplete", [])
        else BackupS3 (some cfg) env fname from by
          rw [if_pos h]
          simp [BackupS3, h]]
    rw [if_pos h]
    exact ⟨rfl, rfl⟩
  · intro h
    simp [ListWebDAVBackups, h]
  · intro h
    rw [show ListS3Backups (some cfg) env files
      = if cfg.s3Endpoint = "" ∨ cfg.s3Bucket = ""
        then (ListResp.err "S3 not configured", [])
        else ListS3Backups (some cfg) env files from by
          rw [if_pos h]
          simp [ListS3Backups, h]]
    rw [if_pos h]
    exact ⟨rfl, rfl⟩
  · intro hf h
    simp [VerifyWebDAVBackup, hf, h]
  · intro hf h
    rw [show VerifyS3Backup (some cfg) env filename archive
      = if cfg.s3Endpoint = "" ∨ cfg.s3Bucket = ""
        then (VerifyResp.err "S3 not configured", [])
        else VerifyS3Backup (some cfg) env filename archive from by
          rw [if_pos h]
          simp [VerifyS3Backup, hf, h]]
    rw [if_pos h]
    exact ⟨rfl, rfl⟩
  · simp only [RestoreWebDAV]
    split_ifs <;> simp
  · intro hs3
    simp only [RestoreS3, hs3]
    split_ifs <;> simp_all

/-- Witness for `not_configured_guards`: with an all-empty config row, a
manual WebDAV backup errors out immediately with no external operation. -/
theorem not_configured_guards_witness :
    (BackupWebDAV (some emptyCfg) envAllOk "f").1 = HResp.err "WebDAV URL not configured"
    ∧ (BackupWebDAV (some emptyCfg) envAllOk "f").2 = [] :=
  (not_configured_guards emptyCfg envAllOk "f" "x" "s" [] [] [] []).1 rfl

/-! ## Theorems: backup success despite cleanup failure (claim C10) -/

/-- Claim C10: whenever checkpoint, archive creation and the upload all
succeed, the manual backup handlers respond "backup successful" with the
uploaded filename, whatever the outcome of the retention cleanup
(`env.cleanupOk` is unconstrained and only appears inside the trailing
cleanup event); and `last_backup_at` is updated before cleanup runs — the
trace ends `…, setLastBackupAt, cleanup _`. -/
theorem backup_success_despite_cleanup_failure (cfg : GoBackupConfig) (env : Env)
    (fname : String) (hck : env.checkpointOk = true) (har : env.archiveOk = true) :
    (cfg.webdavURL ≠ "" → env.webdavWriteOk = true →
      BackupWebDAV (some cfg) env fname
        = (HResp.ok "backup successful" fname,
           [Ev.checkpointWAL, Ev.createArchive, Ev.net NetOp.webdavWrite,
            Ev.setLastBackupAt, Ev.cleanup env.cleanupOk]))
    ∧ (cfg.s3Endpoint ≠ "" → cfg.s3Bucket ≠ "" → cfg.s3AccessKey ≠ ""
        → cfg.s3SecretKey ≠ "" → env.s3ConfigOk = true → env.s3PutOk = true →
      BackupS3 (some cfg) env fname
        = (HResp.ok "backup successful" fname,
           [Ev.checkpointWAL, Ev.createArchive, Ev.net NetOp.s3Put,
            Ev.setLastBackupAt, Ev.cleanup env.cleanupOk])) := by
  constructor
  · intro h1 h2
    simp [BackupWebDAV, h1, h2, hck, har]
  · intro h1 h2 h3 h4 h5 h6
    simp [BackupS3, h1, h2, h3, h4, h5, h6, hck, har]

/-- Witness for `backup_success_despite_cleanup_failure`: a fully
configured WebDAV backup with a failing cleanup still responds "backup
successful" with the filename, the `last_backup_at` update preceding the
failed cleanup. -/
theorem backup_success_despite_cleanup_failure_witness :
    BackupWebDAV (some fullCfg) envCleanupFail "f.tar.gz"
      = (HResp.ok "backup successful" "f.tar.gz",
         [Ev.checkpointWAL, Ev.createArchive, Ev.net NetOp.webdavWrite,
          Ev.setLastBackupAt, Ev.cleanup false]) :=
  (backup_success_despite_cleanup_failure fullCfg envCleanupFail "f.tar.gz" rfl rfl).1
    (by decide) rfl

end Smarticky
